import Mathlib

/-!
Verification of the streaming-transcription backend core
(`backend/app/websocket_manager.py`, `backend/app/transcription.py`,
`backend/app/main.py`): connection registry, session index, outbound
dispatch and the per-chunk pipeline, shallowly embedded as pure
state-passing functions.
-/

namespace VoiceBackend

/-- Connection identities (the `client_id` strings of `main.py`). -/
abbrev ClientId := String

/-- Session identities (client-supplied string tokens). -/
abbrev SessionId := String

/-- State of `WebSocketManager`: `active_connections` is the
insertion-ordered dict from `client_id` to the websocket handle (handles
modelled as `Nat`); `session_clients` is the dict from `session_id` to the
set of member client ids (sets modelled as lists). -/
structure ManagerState where
  active_connections : List (ClientId × Nat)
  session_clients : List (SessionId × List ClientId)
deriving DecidableEq

/-- The key list of the `active_connections` dict. -/
def keysOf (l : List (ClientId × Nat)) : List ClientId := l.map Prod.fst

/-- The member set of a session, `self.session_clients[session_id]`,
read as empty when the session entry is absent. -/
def ManagerState.members (s : ManagerState) (sid : SessionId) : List ClientId :=
  match s.session_clients.lookup sid with
  | some cs => cs
  | none => []

/-- `WebSocketManager.connect`: `self.active_connections[client_id] = websocket`.
Dict assignment replaces the stored value in place when the key already
exists and appends a new entry otherwise; the method raises nothing. -/
def connect (cid : ClientId) (ws : Nat) (s : ManagerState) : ManagerState :=
  if cid ∈ keysOf s.active_connections then
    { s with active_connections :=
        s.active_connections.map (fun p => if p.1 = cid then (cid, ws) else p) }
  else
    { s with active_connections := s.active_connections ++ [(cid, ws)] }

/-- `WebSocketManager.disconnect`: delete the entry from
`active_connections` when present, then remove the client from every
session member set that contains it. -/
def disconnect (cid : ClientId) (s : ManagerState) : ManagerState :=
  { active_connections := s.active_connections.filter (fun p => p.1 ≠ cid),
    session_clients :=
      s.session_clients.map (fun p => (p.1, p.2.filter (fun c => c ≠ cid))) }

/-- `WebSocketManager.send_to_client`: send only when the client is
registered; `fail c = true` models `send_json` raising, upon which the
except branch calls `disconnect`. Returns the deliveries made and the
resulting state. -/
def send_to_client (fail : ClientId → Bool) (cid : ClientId) (s : ManagerState) :
    List ClientId × ManagerState :=
  if cid ∈ keysOf s.active_connections then
    if fail cid then ([], disconnect cid s) else ([cid], s)
  else ([], s)

/-- The sweep loop of `WebSocketManager.broadcast`: walk
`active_connections.items()` in order, collecting deliveries and the local
`disconnected_clients` list; the loop body never mutates the dict. -/
def broadcastSweep (fail : ClientId → Bool) :
    List (ClientId × Nat) → List ClientId × List ClientId
  | [] => ([], [])
  | p :: rest =>
    let r := broadcastSweep fail rest
    if fail p.1 then (r.1, p.1 :: r.2) else (p.1 :: r.1, r.2)

/-- `WebSocketManager.broadcast`: deliver to every registered connection,
then disconnect the collected failures only after the sweep completes. -/
def broadcast (fail : ClientId → Bool) (s : ManagerState) :
    List ClientId × ManagerState :=
  let r := broadcastSweep fail s.active_connections
  (r.1, r.2.foldl (fun st c => disconnect c st) s)

/-- The `for client_id in self.session_clients[session_id]` loop of
`broadcast_to_session`. The iterated object is the live set, not a copy:
a CPython set iterator compares the current size of the set against its
size at iterator creation on every step and raises `RuntimeError` on
mismatch, so a `disconnect` triggered by a failed send (which removes the
member from this very set) aborts the iteration. The third component
records whether the loop raised. -/
def btsLoop (fail : ClientId → Bool) (sid : SessionId) (origLen : Nat) :
    List ClientId → ManagerState → List ClientId × ManagerState × Bool
  | [], s => ([], s, false)
  | c :: rest, s =>
    let r := send_to_client fail c s
    if (r.2.members sid).length ≠ origLen then (r.1, r.2, true)
    else
      let r2 := btsLoop fail sid origLen rest r.2
      (r.1 ++ r2.1, r2.2.1, r2.2.2)

/-- `WebSocketManager.broadcast_to_session`: iterate the live member set
of the session when the session entry exists, doing nothing otherwise. -/
def broadcast_to_session (fail : ClientId → Bool) (sid : SessionId) (s : ManagerState) :
    List ClientId × ManagerState × Bool :=
  if (s.session_clients.lookup sid).isSome then
    btsLoop fail sid (s.members sid).length (s.members sid) s
  else ([], s, false)

/-- `WebSocketManager.register_session_client`: create the session entry
when absent, then set-add the client (idempotent). -/
def register_session_client (sid : SessionId) (cid : ClientId) (s : ManagerState) :
    ManagerState :=
  if (s.session_clients.lookup sid).isSome then
    { s with session_clients :=
        s.session_clients.map (fun p =>
          if p.1 = sid then (p.1, if cid ∈ p.2 then p.2 else p.2 ++ [cid]) else p) }
  else
    { s with session_clients := s.session_clients ++ [(sid, [cid])] }

/-- `WebSocketManager.get_active_count`. -/
def get_active_count (s : ManagerState) : Nat := s.active_connections.length

/-- `WebSocketManager.get_session_client_count`. -/
def get_session_client_count (sid : SessionId) (s : ManagerState) : Nat :=
  (s.members sid).length

/-- A filter by one predicate is idempotent. -/
theorem filter_idem {α : Type} (p : α → Bool) :
    ∀ l : List α, (l.filter p).filter p = l.filter p := by
  intro l
  induction l with
  | nil => rfl
  | cons a t ih => by_cases h : p a <;> simp [List.filter_cons, h, ih]

/-- Looking up in an association list whose values were mapped. -/
theorem lookup_map_values (f : List ClientId → List ClientId) (sid : SessionId) :
    ∀ l : List (SessionId × List ClientId),
      (l.map (fun p => (p.1, f p.2))).lookup sid = (l.lookup sid).map f := by
  intro l
  induction l with
  | nil => rfl
  | cons p rest ih =>
    by_cases h : sid == p.1 <;> simp [List.lookup, h, ih]

/-- After `disconnect cid`, the member set of any session is the old one
with `cid` filtered out. -/
theorem members_disconnect (cid : ClientId) (s : ManagerState) (sid : SessionId) :
    (disconnect cid s).members sid = (s.members sid).filter (fun c => c ≠ cid) := by
  unfold disconnect ManagerState.members
  rw [lookup_map_values (fun cs => cs.filter (fun c => c ≠ cid))]
  cases s.session_clients.lookup sid <;> simp

/-- `disconnect` removes the client from the active-connection keys. -/
theorem disconnect_active_self (cid : ClientId) (s : ManagerState) :
    cid ∉ keysOf (disconnect cid s).active_connections := by
  simp only [disconnect, keysOf, List.mem_map]
  rintro ⟨p, hp, rfl⟩
  have := List.of_mem_filter hp
  simp at this

/-- `disconnect` removes the client from every session member set. -/
theorem disconnect_members_self (cid : ClientId) (s : ManagerState) (sid : SessionId) :
    cid ∉ (disconnect cid s).members sid := by
  rw [members_disconnect]
  intro h
  have := List.of_mem_filter h
  simp at this

/-- Disconnecting someone else never adds a client to the active keys. -/
theorem disconnect_active_mono (c d : ClientId) (s : ManagerState)
    (h : c ∉ keysOf s.active_connections) :
    c ∉ keysOf (disconnect d s).active_connections := by
  simp only [disconnect, keysOf, List.mem_map] at *
  rintro ⟨p, hp, rfl⟩
  exact h ⟨p, List.mem_of_mem_filter hp, rfl⟩

/-- Disconnecting someone else never adds a client to a session. -/
theorem disconnect_members_mono (c d : ClientId) (s : ManagerState) (sid : SessionId)
    (h : c ∉ s.members sid) : c ∉ (disconnect d s).members sid := by
  rw [members_disconnect]
  intro hc
  exact h (List.mem_of_mem_filter hc)

/-- Once a client is absent from the registry and all sessions, any
sequence of disconnect calls keeps it absent. -/
theorem foldl_disconnect_preserves (c : ClientId) :
    ∀ (L : List ClientId) (s : ManagerState),
      c ∉ keysOf s.active_connections → (∀ sid, c ∉ s.members sid) →
      c ∉ keysOf (L.foldl (fun st d => disconnect d st) s).active_connections ∧
      ∀ sid, c ∉ (L.foldl (fun st d => disconnect d st) s).members sid := by
  intro L
  induction L with
  | nil => exact fun s h1 h2 => ⟨h1, h2⟩
  | cons d rest ih =>
    intro s h1 h2
    exact ih (disconnect d s) (disconnect_active_mono c d s h1)
      (fun sid => disconnect_members_mono c d s sid (h2 sid))

/-- Every client in the disconnect worklist is fully absent after the
fold of disconnect calls. -/
theorem foldl_disconnect_absent (c : ClientId) :
    ∀ (L : List ClientId) (s : ManagerState), c ∈ L →
      c ∉ keysOf (L.foldl (fun st d => disconnect d st) s).active_connections ∧
      ∀ sid, c ∉ (L.foldl (fun st d => disconnect d st) s).members sid := by
  intro L
  induction L with
  | nil => intro s h; cases h
  | cons d rest ih =>
    intro s hc
    rcases List.mem_cons.mp hc with rfl | hmem
    · by_cases hr : c ∈ rest
      · exact ih (disconnect c s) hr
      · exact foldl_disconnect_preserves c rest (disconnect c s)
          (disconnect_active_self c s) (disconnect_members_self c s)
    · exact ih (disconnect d s) hmem

/-- The broadcast sweep delivers to exactly the non-failing keys and
collects exactly the failing keys, in dict order. -/
theorem broadcastSweep_eq (fail : ClientId → Bool) :
    ∀ l : List (ClientId × Nat),
      broadcastSweep fail l =
        ((keysOf l).filter (fun c => !fail c), (keysOf l).filter fail) := by
  intro l
  induction l with
  | nil => rfl
  | cons p rest ih =>
    by_cases h : fail p.1 <;> simp [broadcastSweep, keysOf, h, ih]

/-- Outcome of the body of the `try` block of
`TranscriptionService.transcribe_chunk` up to the segment loop: either the
engine yields a sequence of sub-segments `(text, avg_logprob)`, or some
step raises (`np.frombuffer` on odd-length input, `model.transcribe`
timing out or failing internally, or the segment iteration itself). -/
inductive EngineResult where
  | ok : List (String × ℝ) → EngineResult
  | fault : EngineResult

/-- Message of the `RuntimeError` raised when the service is not ready. -/
def notInitMsg : String := "Transcription service not initialized"

/-- Python `str.strip()`; the only whitespace the pipeline introduces is
the space character appended after each segment text. -/
def pyStrip (s : String) : String :=
  ⟨((s.data.dropWhile (fun c => c = ' ')).reverse.dropWhile (fun c => c = ' ')).reverse⟩

/-- `TranscriptionService.transcribe_chunk`: raises `RuntimeError` when
`self.initialized` (here `ready`) is false, and otherwise never raises —
the whole body sits in a try/except whose handler returns `("", 0.0)`.
On success it returns the accumulated segment text, stripped, and
`max(0.0, min(1.0, exp(total_logprob / segment_count)))`, or `0.0` when
there are no sub-segments. -/
noncomputable def transcribe_chunk (ready : Bool) (engine : EngineResult) :
    Except String (String × ℝ) :=
  if ready = false then Except.error notInitMsg
  else
    match engine with
    | EngineResult.fault => Except.ok ("", 0)
    | EngineResult.ok segs =>
      let text := pyStrip (segs.foldl (fun acc seg => acc ++ seg.1 ++ " ") "")
      let confidence : ℝ :=
        if 0 < segs.length then
          max 0 (min 1 (Real.exp ((segs.map Prod.snd).sum / segs.length)))
        else 0
      Except.ok (text, confidence)

/-- Outbound server-to-client messages of `main.py`: `ack chunkId`,
`transcript id sessionId text timestamp confidence language`,
`error chunkId message`, and `pong`. -/
inductive Msg where
  | ack : Nat → Msg
  | transcript : String → String → String → Nat → ℝ → String → Msg
  | error : Nat → String → Msg
  | pong : Msg

/-- One inbound `audio_chunk` payload. The `engine` field is the
environment choice of how the transcription engine behaves on the audio
carried by this chunk. -/
structure ChunkMsg where
  sessionId : String
  chunkId : Nat
  audioData : String
  timestamp : Nat
  engine : EngineResult

/-- Characters `base64.b64decode` treats as data: the standard alphabet
plus the pad character (everything else is discarded under the default
non-validating mode). -/
def isB64Char (c : Char) : Bool :=
  c.isAlpha || c.isDigit || c = '+' || c = '/' || c = '='

/-- Success condition of `base64.b64decode` under default validation: the
number of alphabet characters must be a multiple of four, otherwise
`binascii.Error: Incorrect padding` is raised. -/
def b64DecodeOk (s : String) : Bool :=
  (s.data.filter isB64Char).length % 4 == 0

/-- Exception text of a failed base64 decode. -/
def decodeErrMsg : String := "binascii.Error: Incorrect padding"

/-- Exception raised by the second statement of `handle_audio_chunk`,
`from app.queue import add_to_transcription_queue`: no `app/queue.py`
exists anywhere in the repository (the design notes record that the
queueing layer is referenced but absent), and a failed import is retried
and re-raises on every execution of the statement. -/
def queueImportErrMsg : String := "ModuleNotFoundError: No module named app.queue"

/-- The remainder of `handle_audio_chunk` after its import statements,
embedded from the source: read the fields, decode the payload (outside
any try block), send the ack, then transcribe inside try/except, sending
the transcript only when the text is non-empty and an `error` message
tagged with the chunk id when the transcription call raised. Result: the
outbound messages in send order, plus the exception if one escapes. This
code is unreachable in the program as it stands: the `app.queue` import
above it raises first on every call. -/
noncomputable def handle_audio_chunk_body (ready : Bool) (m : ChunkMsg) :
    List Msg × Option String :=
  if b64DecodeOk m.audioData then
    match transcribe_chunk ready m.engine with
    | Except.error e => ([Msg.ack m.chunkId, Msg.error m.chunkId e], none)
    | Except.ok (text, confidence) =>
      if text = "" then ([Msg.ack m.chunkId], none)
      else
        ([Msg.ack m.chunkId,
          Msg.transcript (m.sessionId ++ "_" ++ toString m.chunkId) m.sessionId
            text m.timestamp confidence "en"], none)
  else ([], some decodeErrMsg)

/-- `handle_audio_chunk` from `main.py`: `import base64` succeeds, then
`from app.queue import add_to_transcription_queue` raises
`ModuleNotFoundError` before the field reads, before `b64decode`, and
before the ack send — `app/queue.py` does not exist in the repository, so
every call raises with no outbound message sent and the rest of the body
(`handle_audio_chunk_body`) never runs. -/
noncomputable def handle_audio_chunk (ready : Bool) (m : ChunkMsg) :
    List Msg × Option String :=
  ([], some queueImportErrMsg)

/-- One inbound client-to-server message, dispatched on its `type`. -/
inductive InMsg where
  | audio_chunk : ChunkMsg → InMsg
  | ping : InMsg
  | other : String → InMsg

/-- The receive loop of `websocket_endpoint`: dispatch on the message
type; any exception escaping `handle_audio_chunk` is caught by the
endpoint handler, which calls `ws_manager.disconnect(client_id)` and ends
the loop. The end of the inbound list is the client `WebSocketDisconnect`,
handled the same way. Returns the outbound messages in send order and the
final manager state. -/
noncomputable def ws_loop (ready : Bool) (cid : ClientId) :
    List InMsg → ManagerState → List Msg × ManagerState
  | [], s => ([], disconnect cid s)
  | InMsg.ping :: rest, s =>
    let r := ws_loop ready cid rest s
    (Msg.pong :: r.1, r.2)
  | InMsg.other _ :: rest, s => ws_loop ready cid rest s
  | InMsg.audio_chunk m :: rest, s =>
    match handle_audio_chunk ready m with
    | (msgs, some _) => (msgs, disconnect cid s)
    | (msgs, none) =>
      let r := ws_loop ready cid rest s
      (msgs ++ r.1, r.2)

/-- When every member of the session is registered and no send fails, the
session-broadcast loop delivers to every member in order, leaves the state
unchanged and does not raise. -/
theorem btsLoop_all_ok (fail : ClientId → Bool) (sid : SessionId) (s : ManagerState)
    (origLen : Nat) :
    ∀ l : List ClientId,
      (∀ c ∈ l, c ∈ keysOf s.active_connections ∧ fail c = false) →
      (s.members sid).length = origLen →
      btsLoop fail sid origLen l s = (l, s, false) := by
  intro l
  induction l with
  | nil => intro _ _; rfl
  | cons c rest ih =>
    intro h hlen
    have hc := h c (List.mem_cons_self c rest)
    have hrest : ∀ c ∈ rest, c ∈ keysOf s.active_connections ∧ fail c = false :=
      fun d hd => h d (List.mem_cons_of_mem c hd)
    simp [btsLoop, send_to_client, hc.1, hc.2, hlen, ih hrest hlen]

/-- C1, corrected. `broadcast_to_session` does not snapshot: it iterates
the live member set, so the claimed insulation from mid-delivery
membership changes fails (see the counterexample). What does hold: when
every member of the session is a registered connection and no send to a
member fails, the call delivers exactly to the members as they stood at
call time, in set order, without raising and without changing the state. -/
theorem broadcast_to_session_snapshot_when_no_failure (fail : ClientId → Bool)
    (sid : SessionId) (s : ManagerState)
    (h : ∀ c ∈ s.members sid, c ∈ keysOf s.active_connections ∧ fail c = false) :
    broadcast_to_session fail sid s = (s.members sid, s, false) := by
  unfold broadcast_to_session
  by_cases hl : (s.session_clients.lookup sid).isSome
  · simp only [hl, if_true]
    exact btsLoop_all_ok fail sid s (s.members sid).length (s.members sid) h rfl
  · have hnone : s.session_clients.lookup sid = none :=
      Option.not_isSome_iff_eq_none.mp hl
    have hmem : s.members sid = [] := by
      unfold ManagerState.members
      rw [hnone]
    simp [hl, hmem]

/-- C1 counterexample. Session `s1` holds `a` and `b`, both registered;
the send to `a` fails. The triggered `disconnect` removes `a` from the
set being iterated, so the iteration raises `RuntimeError`: `b`, a member
of the call-time snapshot whose own send would have succeeded, never
receives the message — delivery is not the call-time member set, and the
in-flight broadcast is affected by the mid-iteration membership change. -/
theorem broadcast_to_session_not_snapshot_cex :
    ("b" ∈ (ManagerState.mk [("a", 1), ("b", 2)] [("s1", ["a", "b"])]).members "s1") ∧
    (broadcast_to_session (fun c => c == "a") "s1"
        (ManagerState.mk [("a", 1), ("b", 2)] [("s1", ["a", "b"])])).1 = [] ∧
    ("b" ∉ (broadcast_to_session (fun c => c == "a") "s1"
        (ManagerState.mk [("a", 1), ("b", 2)] [("s1", ["a", "b"])])).1) ∧
    (broadcast_to_session (fun c => c == "a") "s1"
        (ManagerState.mk [("a", 1), ("b", 2)] [("s1", ["a", "b"])])).2.2 = true := by
  decide

/-- Witness for `broadcast_to_session_snapshot_when_no_failure`. -/
theorem broadcast_to_session_snapshot_when_no_failure_witness :
    broadcast_to_session (fun _ => false) "s1"
        (ManagerState.mk [("a", 1), ("b", 2)] [("s1", ["a", "b"])]) =
      (["a", "b"], ManagerState.mk [("a", 1), ("b", 2)] [("s1", ["a", "b"])], false) := by
  have h := broadcast_to_session_snapshot_when_no_failure (fun _ => false) "s1"
    (ManagerState.mk [("a", 1), ("b", 2)] [("s1", ["a", "b"])]) (by decide)
  exact h.trans (by decide)

/-- C2, confirmed. After `disconnect cid`, the client is gone from the
active-connection map and from the member set of every session (no
orphaned membership); the call is idempotent, and a no-op when the client
is already fully absent. -/
theorem disconnect_cleanup_spec (cid : ClientId) (s : ManagerState) :
    cid ∉ keysOf (disconnect cid s).active_connections ∧
    (∀ sid, cid ∉ (disconnect cid s).members sid) ∧
    disconnect cid (disconnect cid s) = disconnect cid s ∧
    ((cid ∉ keysOf s.active_connections ∧ ∀ p ∈ s.session_clients, cid ∉ p.2) →
      disconnect cid s = s) := by
  refine ⟨disconnect_active_self cid s, disconnect_members_self cid s, ?_, ?_⟩
  · unfold disconnect
    simp only [List.map_map, ManagerState.mk.injEq]
    refine ⟨filter_idem _ s.active_connections, ?_⟩
    apply List.map_congr_left
    intro p _
    simp only [Function.comp_apply]
    rw [filter_idem]
  · rintro ⟨h1, h2⟩
    unfold disconnect
    have ha : s.active_connections.filter (fun p => p.1 ≠ cid) = s.active_connections := by
      apply List.filter_eq_self.mpr
      intro p hp
      simp only [ne_eq, decide_eq_true_eq]
      intro heq
      exact h1 (List.mem_map.mpr ⟨p, hp, heq⟩)
    have hs : s.session_clients.map (fun p => (p.1, p.2.filter (fun c => c ≠ cid))) =
        s.session_clients := by
      have hid : ∀ p ∈ s.session_clients,
          (fun p : SessionId × List ClientId =>
            (p.1, p.2.filter (fun c => c ≠ cid))) p = id p := by
        intro p hp
        have hfil : p.2.filter (fun c => c ≠ cid) = p.2 := by
          apply List.filter_eq_self.mpr
          intro c hc
          simp only [ne_eq, decide_eq_true_eq]
          intro hceq
          exact h2 p hp (hceq ▸ hc)
        show (p.1, p.2.filter (fun c => c ≠ cid)) = p
        rw [hfil]
      rw [List.map_congr_left hid, List.map_id]
    rw [ha, hs]

/-- Witness for `disconnect_cleanup_spec`. -/
theorem disconnect_cleanup_spec_witness :
    disconnect "z" (ManagerState.mk [("a", 1)] [("s1", ["a"])]) =
      ManagerState.mk [("a", 1)] [("s1", ["a"])] :=
  (disconnect_cleanup_spec "z" (ManagerState.mk [("a", 1)] [("s1", ["a"])])).2.2.2
    (by decide)

/-- In-place replacement of the value stored under an existing dict key
is found by lookup. -/
theorem lookup_replace (cid : ClientId) (ws : Nat) :
    ∀ l : List (ClientId × Nat), cid ∈ keysOf l →
      (l.map (fun p => if p.1 = cid then (cid, ws) else p)).lookup cid = some ws := by
  intro l
  induction l with
  | nil => intro h; cases h
  | cons p rest ih =>
    intro hmem
    by_cases h : p.1 = cid
    · rw [List.map_cons, if_pos h]
      simp [List.lookup]
    · have hrest : cid ∈ keysOf rest := by
        rcases List.mem_map.mp hmem with ⟨q, hq, hq1⟩
        rcases List.mem_cons.mp hq with rfl | hqr
        · exact absurd hq1 h
        · exact List.mem_map.mpr ⟨q, hqr, hq1⟩
      have hne : (cid == p.1) = false := beq_eq_false_iff_ne.mpr (Ne.symm h)
      rw [List.map_cons, if_neg h]
      simp [List.lookup, hne, ih hrest]

/-- C6, corrected. `WebSocketManager.connect` cannot fail: there is no
duplicate check and no `DuplicateConnection` error anywhere in the code.
Re-registering an identity already present silently replaces the stored
handle in place: the key set is unchanged, lookup returns the new handle,
and session membership is untouched. -/
theorem connect_replaces_existing (cid : ClientId) (ws : Nat) (s : ManagerState)
    (h : cid ∈ keysOf s.active_connections) :
    keysOf (connect cid ws s).active_connections = keysOf s.active_connections ∧
    (connect cid ws s).active_connections.lookup cid = some ws ∧
    (connect cid ws s).session_clients = s.session_clients := by
  unfold connect
  rw [if_pos h]
  refine ⟨?_, lookup_replace cid ws s.active_connections h, rfl⟩
  simp only [keysOf, List.map_map]
  apply List.map_congr_left
  intro p _
  by_cases hp : p.1 = cid <;> simp [hp]

/-- C6 counterexample. Registering `a` twice: the second `connect` call
succeeds (nothing in the code can reject it) and silently replaces the
stored handle `1` with `2`, contradicting the claimed
`DuplicateConnection` failure. -/
theorem connect_duplicate_replaces_cex :
    connect "a" 2 (connect "a" 1 (ManagerState.mk [] [])) =
      ManagerState.mk [("a", 2)] [] ∧
    (connect "a" 2 (connect "a" 1 (ManagerState.mk [] []))).active_connections.lookup "a"
      ≠ some 1 := by
  decide

/-- Witness for `connect_replaces_existing`. -/
theorem connect_replaces_existing_witness :
    keysOf (connect "a" 5 (ManagerState.mk [("a", 1), ("b", 2)] [])).active_connections
      = ["a", "b"] ∧
    (connect "a" 5 (ManagerState.mk [("a", 1), ("b", 2)] [])).active_connections.lookup "a"
      = some 5 := by
  have h := connect_replaces_existing "a" 5 (ManagerState.mk [("a", 1), ("b", 2)] [])
    (by decide)
  exact ⟨h.1.trans (by decide), h.2.1⟩

/-- C8, confirmed. A broadcast sweep over the registry: a failing send
does not stop delivery — the delivered list is exactly the non-failing
registered connections, in registry order, each exactly once (keys of a
dict are distinct) — and every registered connection whose send failed is
torn down only after the sweep, ending absent from the registry and from
every session. -/
theorem broadcast_failure_isolation_spec (fail : ClientId → Bool) (s : ManagerState)
    (hnd : (keysOf s.active_connections).Nodup) :
    (broadcast fail s).1 = (keysOf s.active_connections).filter (fun c => !fail c) ∧
    (∀ c ∈ keysOf s.active_connections, fail c = false → (broadcast fail s).1.count c = 1) ∧
    (∀ c ∈ keysOf s.active_connections, fail c = true →
      c ∉ keysOf (broadcast fail s).2.active_connections ∧
      ∀ sid, c ∉ (broadcast fail s).2.members sid) := by
  unfold broadcast
  rw [broadcastSweep_eq]
  refine ⟨rfl, ?_, ?_⟩
  · intro c hc hfc
    have hmem : c ∈ (keysOf s.active_connections).filter (fun c => !fail c) :=
      List.mem_filter.mpr ⟨hc, by simp [hfc]⟩
    have hndf : ((keysOf s.active_connections).filter (fun c => !fail c)).Nodup :=
      hnd.filter _
    exact List.count_eq_one_of_mem hndf hmem
  · intro c hc hfc
    exact foldl_disconnect_absent c ((keysOf s.active_connections).filter fail) s
      (List.mem_filter.mpr ⟨hc, hfc⟩)

/-- Witness for `broadcast_failure_isolation_spec`: three registered
connections, the send to `a` fails, `b` and `c` still receive, and `a`
is removed from the registry afterwards. -/
theorem broadcast_failure_isolation_spec_witness :
    (broadcast (fun c => c == "a")
      (ManagerState.mk [("a", 1), ("b", 2), ("c", 3)] [("s1", ["a", "b"])])).1
      = ["b", "c"] ∧
    "a" ∉ keysOf (broadcast (fun c => c == "a")
      (ManagerState.mk [("a", 1), ("b", 2), ("c", 3)] [("s1", ["a", "b"])])).2.active_connections := by
  have h := broadcast_failure_isolation_spec (fun c => c == "a")
    (ManagerState.mk [("a", 1), ("b", 2), ("c", 3)] [("s1", ["a", "b"])]) (by decide)
  exact ⟨h.1.trans (by decide), (h.2.2 "a" (by decide) (by decide)).1⟩

/-- C10, confirmed. Once the service is initialized, `transcribe_chunk`
never raises: the entire body sits inside try/except and every internal
failure (odd-length PCM in `np.frombuffer`, engine faults) returns
`("", 0.0)`, indistinguishable from the zero-sub-segment silent result;
only the not-initialized guard raises, with the fixed `RuntimeError`
message. -/
theorem transcribe_total_once_ready :
    (∀ engine, (transcribe_chunk true engine).isOk = true) ∧
    transcribe_chunk true EngineResult.fault = Except.ok ("", 0) ∧
    transcribe_chunk true EngineResult.fault = transcribe_chunk true (EngineResult.ok []) ∧
    (∀ engine, transcribe_chunk false engine = Except.error notInitMsg) := by
  refine ⟨?_, rfl, rfl, fun engine => rfl⟩
  intro engine
  cases engine <;> rfl

/-- C7, a code bug. The claim matches the intent — the empty-text guard
`if transcript_text:` is in the source, the function docstring promises
the decode/ack/transcript flow, and the spec scenario expects
`ack{chunkId:1}` and no transcript for a silence chunk — but the dead
`from app.queue import add_to_transcription_queue` raises on every call
before the ack send, so the silence chunk below (its transcription is
genuinely empty, as the first conjunct shows) produces no ack either: the
handler emits nothing, the exception escapes, and the endpoint tears the
connection down. -/
theorem silence_chunk_gets_no_ack_bug :
    transcribe_chunk true (EngineResult.ok []) = Except.ok ("", 0) ∧
    handle_audio_chunk true (ChunkMsg.mk "s1" 1 "AAAA" 1000 (EngineResult.ok [])) =
      ([], some queueImportErrMsg) ∧
    ws_loop true "c1"
        [InMsg.audio_chunk (ChunkMsg.mk "s1" 1 "AAAA" 1000 (EngineResult.ok []))]
        (ManagerState.mk [("c1", 5)] []) = ([], ManagerState.mk [] []) :=
  ⟨rfl, rfl, rfl⟩

/-- C9, corrected. No audio chunk is ever acknowledged: the handler
raises `ModuleNotFoundError` at the dead `app.queue` import before the
ack send is reached, so the per-chunk outbound message list is empty for
every chunk — no ack, and also no `transcript` or `error`, ever leaves
the handler (the claimed ack-before-result ordering is vacuous). -/
theorem no_ack_ever_sent (ready : Bool) (m : ChunkMsg) :
    (handle_audio_chunk ready m).1 = [] ∧
    (handle_audio_chunk ready m).2 = some queueImportErrMsg ∧
    Msg.ack m.chunkId ∉ (handle_audio_chunk ready m).1 := by
  refine ⟨rfl, rfl, ?_⟩
  simp [handle_audio_chunk]

/-- C9 counterexample. A well-formed audio chunk from an initialized
service — nothing about it is faulty — still gets no ack: the handler
raises at the missing `app.queue` import before the ack send and emits no
message at all, refuting the claim that every received audio chunk is
acknowledged immediately on receipt. -/
theorem audio_chunk_no_ack_cex :
    handle_audio_chunk true (ChunkMsg.mk "s1" 7 "AAAA" 1000 (EngineResult.ok [("hello", -1)]))
      = ([], some queueImportErrMsg) := rfl

/-- C3, corrected. No per-chunk failure handling ever executes: every
`audio_chunk` — failing or not — makes `handle_audio_chunk` raise
`ModuleNotFoundError` at the dead `app.queue` import, before the ack send
and before the try/except that would catch a transcription failure. So a
chunk whose transcription would fail never yields an `error` message
tagged with its chunk id (no message at all is emitted); the escaped
exception makes the endpoint disconnect the client and end the receive
loop, so the first chunk terminates the connection and no subsequent
message is processed. (Were the import reachable, the only raising
transcription path would still be the not-initialized `RuntimeError`:
engine-internal faults are swallowed inside `transcribe_chunk`.) -/
theorem chunk_failure_never_isolated (ready : Bool) (cid : ClientId) (m : ChunkMsg)
    (rest : List InMsg) (s : ManagerState) :
    handle_audio_chunk ready m = ([], some queueImportErrMsg) ∧
    ws_loop ready cid (InMsg.audio_chunk m :: rest) s = ([], disconnect cid s) ∧
    cid ∉ keysOf (ws_loop ready cid (InMsg.audio_chunk m :: rest) s).2.active_connections ∧
    ∀ e, Msg.error m.chunkId e ∉ (ws_loop ready cid (InMsg.audio_chunk m :: rest) s).1 := by
  have h2 : ws_loop ready cid (InMsg.audio_chunk m :: rest) s = ([], disconnect cid s) := rfl
  refine ⟨rfl, h2, ?_, ?_⟩
  · rw [h2]
    exact disconnect_active_self cid s
  · intro e
    rw [h2]
    simp

/-- C3 counterexample. The service is initialized and chunk 7's engine
call would fault — the situation the claim covers — yet the handler
raises at the missing `app.queue` import before any send: no `error`
message tagged 7 is emitted (no message at all), and the connection is
torn down, so chunk 8 is never processed. This refutes both the
error-message and the connection-survival parts of the claim. -/
theorem engine_fault_no_error_message_cex :
    handle_audio_chunk true (ChunkMsg.mk "s1" 7 "AAAA" 1000 EngineResult.fault) =
      ([], some queueImportErrMsg) ∧
    ws_loop true "c1"
        [InMsg.audio_chunk (ChunkMsg.mk "s1" 7 "AAAA" 1000 EngineResult.fault),
         InMsg.audio_chunk (ChunkMsg.mk "s1" 8 "AAAA" 1001 EngineResult.fault)]
        (ManagerState.mk [("c1", 5)] []) = ([], ManagerState.mk [] []) :=
  ⟨rfl, rfl⟩

/-- C4, corrected. A chunk with malformed `audioData` sends no per-chunk
`error` message and the connection is torn down — but the mechanism is
not the decode: `b64decode` at line 149 is never reached, because the
`app.queue` import at line 141 raises `ModuleNotFoundError` first. A
malformed payload and a well-formed one produce the identical handler
outcome (no outbound message, an escaped exception), and the endpoint
handler then disconnects the client and ends the receive loop. -/
theorem decode_failure_raises_and_disconnects (ready : Bool) (cid : ClientId)
    (m mgood : ChunkMsg) (rest : List InMsg) (s : ManagerState)
    (hbad : b64DecodeOk m.audioData = false)
    (hgood : b64DecodeOk mgood.audioData = true) :
    handle_audio_chunk ready m = ([], some queueImportErrMsg) ∧
    handle_audio_chunk ready mgood = handle_audio_chunk ready m ∧
    ws_loop ready cid (InMsg.audio_chunk m :: rest) s = ([], disconnect cid s) ∧
    cid ∉ keysOf (ws_loop ready cid (InMsg.audio_chunk m :: rest) s).2.active_connections := by
  have h2 : ws_loop ready cid (InMsg.audio_chunk m :: rest) s = ([], disconnect cid s) := rfl
  refine ⟨rfl, rfl, h2, ?_⟩
  rw [h2]
  exact disconnect_active_self cid s

/-- C4 counterexample. A registered client sends a chunk whose
`audioData` is not valid base64: the server sends no `error` message (no
message at all — the handler raises at the missing `app.queue` import
before the decode could even reject the payload) and the client ends up
removed from the registry — the connection does not stay open. -/
theorem decode_failure_no_error_message_cex :
    handle_audio_chunk true (ChunkMsg.mk "s1" 2 "a" 0 EngineResult.fault) =
      ([], some queueImportErrMsg) ∧
    ws_loop true "c1" [InMsg.audio_chunk (ChunkMsg.mk "s1" 2 "a" 0 EngineResult.fault)]
        (ManagerState.mk [("c1", 5)] []) =
      ([], ManagerState.mk [] []) := ⟨rfl, rfl⟩

/-- Witness for `decode_failure_raises_and_disconnects`. -/
theorem decode_failure_raises_and_disconnects_witness :
    ws_loop true "c9" [InMsg.audio_chunk (ChunkMsg.mk "s2" 3 "ab!" 0 EngineResult.fault)]
        (ManagerState.mk [("c9", 1)] [("s2", ["c9"])]) =
      ([], disconnect "c9" (ManagerState.mk [("c9", 1)] [("s2", ["c9"])])) :=
  (decode_failure_raises_and_disconnects true "c9"
    (ChunkMsg.mk "s2" 3 "ab!" 0 EngineResult.fault)
    (ChunkMsg.mk "s2" 4 "AAAA" 0 EngineResult.fault) []
    (ManagerState.mk [("c9", 1)] [("s2", ["c9"])]) (by decide) (by decide)).2.2.1

/-- Numeric bounds for `exp (-5)`, the confidence of a chunk whose mean
log-probability is `-5.0`. -/
theorem exp_neg_five_bounds : 0.0066 < Real.exp (-5) ∧ Real.exp (-5) < 0.0068 := by
  have e1 : Real.exp 1 < 2.7182818286 := Real.exp_one_lt_d9
  have e2 : (2.7182818283 : ℝ) < Real.exp 1 := Real.exp_one_gt_d9
  have hexp5 : Real.exp 5 = Real.exp 1 ^ 5 := by
    rw [← Real.exp_nat_mul]
    norm_num
  have hlb : (147.1 : ℝ) < Real.exp 5 := by
    rw [hexp5]
    calc (147.1 : ℝ) < 2.7182818283 ^ 5 := by norm_num
      _ < Real.exp 1 ^ 5 := pow_lt_pow_left₀ e2 (by norm_num) (by norm_num)
  have hub : Real.exp 5 < (151 : ℝ) := by
    rw [hexp5]
    calc Real.exp 1 ^ 5 < 2.7182818286 ^ 5 :=
        pow_lt_pow_left₀ e1 (le_of_lt (Real.exp_pos 1)) (by norm_num)
      _ < (151 : ℝ) := by norm_num
  have hmul : Real.exp (-5) * Real.exp 5 = 1 := by
    rw [← Real.exp_add]
    norm_num
  have hpos : 0 < Real.exp (-5) := Real.exp_pos _
  constructor
  · nlinarith
  · nlinarith

/-- C5, confirmed. With at least one sub-segment, the reported confidence
is `max(0, min(1, exp(mean of the avg_logprob values)))`; a mean of `0.0`
gives confidence `1.0`; a mean of `-5.0` gives `exp(-5)`, approximately
`0.0067` (between `0.0066` and `0.0068`); with zero sub-segments the
confidence is `0.0`; and every confidence the service returns lies in
`[0.0, 1.0]`. -/
theorem transcribe_confidence_spec :
    (∀ segs : List (String × ℝ), segs ≠ [] →
      transcribe_chunk true (EngineResult.ok segs) =
        Except.ok (pyStrip (segs.foldl (fun acc seg => acc ++ seg.1 ++ " ") ""),
          max 0 (min 1 (Real.exp ((segs.map Prod.snd).sum / segs.length))))) ∧
    transcribe_chunk true (EngineResult.ok []) = Except.ok ("", 0) ∧
    (∀ t : String, transcribe_chunk true (EngineResult.ok [(t, 0)]) =
      Except.ok (pyStrip (t ++ " "), 1)) ∧
    (∀ (t txt : String) (c : ℝ),
      transcribe_chunk true (EngineResult.ok [(t, -5)]) = Except.ok (txt, c) →
      0.0066 < c ∧ c < 0.0068) ∧
    (∀ (engine : EngineResult) (txt : String) (c : ℝ),
      transcribe_chunk true engine = Except.ok (txt, c) → 0 ≤ c ∧ c ≤ 1) := by
  have hform : ∀ segs : List (String × ℝ), segs ≠ [] →
      transcribe_chunk true (EngineResult.ok segs) =
        Except.ok (pyStrip (segs.foldl (fun acc seg => acc ++ seg.1 ++ " ") ""),
          max 0 (min 1 (Real.exp ((segs.map Prod.snd).sum / segs.length)))) := by
    intro segs hne
    have hpos : 0 < segs.length := List.length_pos.mpr hne
    simp [transcribe_chunk, hpos]
  refine ⟨hform, rfl, ?_, ?_, ?_⟩
  · intro t
    have h := hform [(t, 0)] (by simp)
    rw [h]
    norm_num
  · intro t txt c h
    have h0 := hform [(t, -5)] (by simp)
    rw [h0] at h
    have hc : c = max 0 (min 1 (Real.exp ((-5 : ℝ) / 1))) := by
      have := (Except.ok.inj h)
      have hsnd := congrArg Prod.snd this
      simpa using hsnd.symm
    have h5 : ((-5 : ℝ) / 1) = -5 := by norm_num
    rw [h5] at hc
    have hb := exp_neg_five_bounds
    have hmin : min 1 (Real.exp (-5)) = Real.exp (-5) :=
      min_eq_right (le_of_lt (lt_trans hb.2 (by norm_num)))
    have hmax : max 0 (Real.exp (-5)) = Real.exp (-5) :=
      max_eq_right (le_of_lt (Real.exp_pos _))
    rw [hmin, hmax] at hc
    rw [hc]
    exact hb
  · intro engine txt c h
    cases engine with
    | fault =>
      have := Except.ok.inj h
      have hsnd := congrArg Prod.snd this
      simp at hsnd
      constructor <;> simp [← hsnd]
    | ok segs =>
      by_cases hne : segs = []
      · subst hne
        have := Except.ok.inj h
        have hsnd := congrArg Prod.snd this
        simp [transcribe_chunk] at hsnd
        constructor <;> simp [← hsnd]
      · rw [hform segs hne] at h
        have := Except.ok.inj h
        have hsnd := congrArg Prod.snd this
        simp only at hsnd
        rw [← hsnd]
        constructor
        · exact le_max_left 0 _
        · exact max_le (by norm_num) (min_le_left 1 _)

/-- Witness for `transcribe_confidence_spec`: one sub-segment with
log-probability zero yields confidence exactly one, which the bounds
part of the claim confirms lies in the unit interval. -/
theorem transcribe_confidence_spec_witness :
    transcribe_chunk true (EngineResult.ok [("hi", (0 : ℝ))]) = Except.ok ("hi", (1 : ℝ)) ∧
    (0 ≤ (1 : ℝ) ∧ (1 : ℝ) ≤ 1) := by
  have h := transcribe_confidence_spec.2.2.1 "hi"
  have h2 : transcribe_chunk true (EngineResult.ok [("hi", (0 : ℝ))]) =
      Except.ok ("hi", (1 : ℝ)) := by
    rw [h]
    rfl
  exact ⟨h2, transcribe_confidence_spec.2.2.2.2 (EngineResult.ok [("hi", (0 : ℝ))]) "hi" 1 h2⟩

end VoiceBackend
